import Mathlib

/-!
Shallow embedding of the relationship/graph computation core of the
multiorg-finance repository, together with proofs about its behaviour.

The embedding follows the TypeScript source:
* src/server/routers.ts        (the debts.addPayment mutation and the zod
                                input schemas of the tRPC procedures)
* src/server/db.ts             (getDebtById, createDebtPayment, updateDebt)
* src/server/hypergraph-db.ts  (getEffectiveOwnership, getRelationshipsByEntity,
                                getHypergraphNeighborhood, getStockFlowDynamics)
* src/drizzle/schema.ts        (table shapes: nullable columns become Option,
                                money and basis points are scaled integers)

Dates, JSON blobs and audit columns (createdAt, updatedAt, ...) are not read
by any of the modelled computations; dates are abstracted as natural numbers
and the unread columns are omitted.  SQL NULL is modelled by Option, and the
MySQL row lists are modelled by Lean lists in table order.
-/

namespace MultiorgFinance

/-! ## Data model: debts (src/drizzle/schema.ts, debts and debtPayments tables) -/

/-- The debts.status enum: active | paid | overdue. -/
inductive DebtStatus where
  | active
  | paid
  | overdue
deriving DecidableEq, Repr

/-- A row of the debts table; columns read or written by the debt payment
engine.  Money columns are cents stored as integers. -/
structure Debt where
  id : Nat
  organizationId : Nat
  creditorName : String
  originalAmount : Int
  remainingAmount : Int
  status : DebtStatus
deriving DecidableEq, Repr

/-- A row of the debtPayments table (append-only ledger). -/
structure DebtPayment where
  debtId : Nat
  amount : Int
  paymentDate : Nat
  notes : Option String
deriving DecidableEq, Repr

/-- The finance part of the entity store: the two tables the debt payment
engine touches. -/
structure FinanceStore where
  debts : List Debt
  debtPayments : List DebtPayment
deriving DecidableEq, Repr

/-- db.getDebtById: SELECT from debts WHERE id = ? LIMIT 1, returning the
first match or undefined. -/
def getDebtById (s : FinanceStore) (id : Nat) : Option Debt :=
  s.debts.find? (fun d => d.id == id)

/-- db.createDebtPayment: INSERT a debtPayments row (appended to the table). -/
def createDebtPayment (s : FinanceStore) (p : DebtPayment) : FinanceStore :=
  { s with debtPayments := s.debtPayments ++ [p] }

/-- Partial field update of one debt row, covering the two columns the
addPayment mutation writes (db.updateDebt receives a Partial record). -/
def updateDebtFields (remaining : Option Int) (status : Option DebtStatus)
    (d : Debt) : Debt :=
  { d with remainingAmount := remaining.getD d.remainingAmount,
           status := status.getD d.status }

/-- db.updateDebt: UPDATE debts SET ... WHERE id = ? (every row with the id
is rewritten; ids are unique in practice, and the update touches no other
row). -/
def updateDebt (s : FinanceStore) (id : Nat) (remaining : Option Int)
    (status : Option DebtStatus) : FinanceStore :=
  { s with
    debts := s.debts.map fun d =>
      if d.id == id then updateDebtFields remaining status d else d }

/-- Input of the debts.addPayment tRPC mutation (routers.ts lines 188-193).
The zod schema constrains only the shapes: amount is an unrestricted number. -/
structure AddPaymentInput where
  debtId : Nat
  amount : Int
  paymentDate : Nat
  notes : Option String
deriving DecidableEq, Repr

/-- Result shape of mutations that report plain success. -/
structure MutationResult where
  success : Bool
deriving DecidableEq, Repr

/-- The debts.addPayment mutation (routers.ts lines 194-210): append the
payment record unconditionally, then load the debt; when present, clamp the
new remaining amount at zero and mark the debt paid exactly when the new
remaining amount is zero; when absent, skip the update.  Either way the
mutation reports success. -/
def addPayment (s : FinanceStore) (input : AddPaymentInput) :
    FinanceStore × MutationResult :=
  let s1 := createDebtPayment s
    { debtId := input.debtId, amount := input.amount,
      paymentDate := input.paymentDate, notes := input.notes }
  match getDebtById s1 input.debtId with
  | some debt =>
    let newRemaining := max 0 (debt.remainingAmount - input.amount)
    let newStatus := if newRemaining = 0 then DebtStatus.paid else debt.status
    (updateDebt s1 input.debtId (some newRemaining) (some newStatus),
     { success := true })
  | none => (s1, { success := true })

/-! ## Basic lemmas about the debt payment engine -/

theorem updateDebtFields_id (remaining : Option Int) (status : Option DebtStatus)
    (d : Debt) : (updateDebtFields remaining status d).id = d.id := rfl

/-- Appending a payment record does not change the debts table, so debt
lookups are unaffected. -/
theorem getDebtById_createDebtPayment (s : FinanceStore) (p : DebtPayment)
    (id : Nat) : getDebtById (createDebtPayment s p) id = getDebtById s id := rfl

theorem find?_map_update (l : List Debt) (id : Nat) (remaining : Option Int)
    (status : Option DebtStatus) :
    (l.map (fun d => if d.id == id then updateDebtFields remaining status d else d)).find?
        (fun d => d.id == id)
      = (l.find? (fun d => d.id == id)).map (updateDebtFields remaining status) := by
  induction l with
  | nil => rfl
  | cons d ds ih =>
    rw [List.map_cons]
    by_cases h : d.id = id
    · rw [List.find?_cons_of_pos _ (by simp [h, updateDebtFields_id]),
          List.find?_cons_of_pos _ (by simp [h])]
      simp [h]
    · rw [List.find?_cons_of_neg _ (by simp [h, updateDebtFields_id]),
          List.find?_cons_of_neg _ (by simp [h])]
      exact ih

/-- Looking a debt up after db.updateDebt returns the updated fields. -/
theorem getDebtById_updateDebt (s : FinanceStore) (id : Nat)
    (remaining : Option Int) (status : Option DebtStatus) :
    getDebtById (updateDebt s id remaining status) id
      = (getDebtById s id).map (updateDebtFields remaining status) := by
  simpa [getDebtById, updateDebt] using
    find?_map_update s.debts id remaining status

/-- Core behaviour of addPayment on an existing debt: success is reported and
the stored debt afterwards carries the clamped remaining amount, with status
paid exactly when that amount is zero and unchanged otherwise. -/
theorem addPayment_spec (s : FinanceStore) (input : AddPaymentInput) (d : Debt)
    (h : getDebtById s input.debtId = some d) :
    (addPayment s input).2.success = true ∧
    getDebtById (addPayment s input).1 input.debtId =
      some { d with
        remainingAmount := max 0 (d.remainingAmount - input.amount),
        status := if max 0 (d.remainingAmount - input.amount) = 0
                  then DebtStatus.paid else d.status } := by
  have h1 : getDebtById
      (createDebtPayment s
        { debtId := input.debtId, amount := input.amount,
          paymentDate := input.paymentDate, notes := input.notes })
      input.debtId = some d := h
  constructor
  · simp [addPayment, h1]
  · simp only [addPayment, h1]
    rw [getDebtById_updateDebt, h1]
    simp [updateDebtFields]

/-- addPayment always appends exactly the given payment record to the
ledger, whether or not the debt exists. -/
theorem addPayment_appends_payment (s : FinanceStore) (input : AddPaymentInput) :
    (addPayment s input).1.debtPayments
      = s.debtPayments ++
        [{ debtId := input.debtId, amount := input.amount,
           paymentDate := input.paymentDate, notes := input.notes }] := by
  simp only [addPayment]
  cases h : getDebtById
      (createDebtPayment s
        { debtId := input.debtId, amount := input.amount,
          paymentDate := input.paymentDate, notes := input.notes })
      input.debtId with
  | none => rfl
  | some d => rfl

/-- addPayment always reports success. -/
theorem addPayment_success (s : FinanceStore) (input : AddPaymentInput) :
    (addPayment s input).2.success = true := by
  simp only [addPayment]
  cases h : getDebtById
      (createDebtPayment s
        { debtId := input.debtId, amount := input.amount,
          paymentDate := input.paymentDate, notes := input.notes })
      input.debtId with
  | none => rfl
  | some d => rfl

/-! ## Data model: hypergraph layer (src/drizzle/schema.ts hypergraph tables) -/

/-- A row of the organizations table; only id and name are read by the
ownership resolver's final join. -/
structure Organization where
  id : Nat
  name : String
deriving DecidableEq, Repr

/-- A row of the shareholding table: one weighted ownership edge
parent to child, sharePercentage in basis points.  The column is an INT;
the create path validates it into the range zero to ten thousand, so it is
modelled as a natural number. -/
structure Shareholding where
  childOrgId : Nat
  parentOrgId : Nat
  sharePercentage : Nat
deriving DecidableEq, Repr

/-- A row of the relationship_types table (columns the relationship query
selects; the category enum is kept as its string value). -/
structure RelationshipType where
  id : Nat
  name : String
  category : String
  isDirected : Bool
  isWeighted : Bool
deriving DecidableEq, Repr

/-- A row of the relationships table (columns the relationship query reads;
timestamps abstracted to naturals, NULL to none). -/
structure Relationship where
  id : Nat
  relationshipTypeId : Nat
  sourceEntityId : Nat
  sourceEntityType : String
  targetEntityId : Nat
  targetEntityType : String
  weight : Option Int
  validFrom : Nat
  validTo : Option Nat
deriving DecidableEq, Repr

/-- A row of the hypergraph_nodes table. -/
structure HypergraphNode where
  id : Nat
  nodeType : String
  entityId : Nat
  label : String
deriving DecidableEq, Repr

/-- A row of the hypergraph_hyperedges table. -/
structure HypergraphHyperedge where
  id : Nat
  edgeType : String
  label : Option String
  weight : Option Int
deriving DecidableEq, Repr

/-- A row of the hypergraph_incidences table; role is a nullable varchar. -/
structure HypergraphIncidence where
  hyperedgeId : Nat
  nodeId : Nat
  role : Option String
deriving DecidableEq, Repr

/-- A row of the stocks table (columns read by the stock-flow projector). -/
structure Stock where
  id : Nat
  entityId : Nat
  entityType : String
  stockName : String
  currentValue : Int
  unit : Option String
  minValue : Option Int
  maxValue : Option Int
deriving DecidableEq, Repr

/-- A row of the flows table; sourceStockId, targetStockId and currentRate
are nullable. -/
structure Flow where
  id : Nat
  flowName : String
  sourceStockId : Option Nat
  targetStockId : Option Nat
  currentRate : Option Int
deriving DecidableEq, Repr

/-- The hypergraph part of the entity store: the tables read by the four
read-only components of hypergraph-db.ts. -/
structure HypergraphStore where
  organizations : List Organization
  shareholdings : List Shareholding
  relationshipTypes : List RelationshipType
  relationships : List Relationship
  hypergraphNodes : List HypergraphNode
  hypergraphHyperedges : List HypergraphHyperedge
  hypergraphIncidences : List HypergraphIncidence
  stocks : List Stock
  flows : List Flow
deriving DecidableEq, Repr

/-! ## Ownership Resolver (hypergraph-db.ts getEffectiveOwnership)

The recursive CTE ownership_chain is embedded level by level: the
non-recursive branch seeds depth-1 rows from the direct shareholding edges of
the root, and each iteration extends every row whose depth is still below
maxDepth by one shareholding edge, multiplying the accumulated ownership in
basis points.  The CTE column effectiveOwnership is typed INT by its seed
column, and MySQL division of integers yields a DECIMAL, so each step stores
the DECIMAL quotient of accumulated ownership times sharePercentage over ten
thousand into an INT column, which rounds half away from zero.  On the
non-negative operands here that storage rounding is the integer quantity
obtained by adding five thousand to the product before dividing by ten
thousand.  The final SELECT joins organizations for the child name, filters
to at least one hundred basis points and orders by effective ownership
descending. -/

/-- A working row of the ownership_chain CTE. -/
structure OwnershipChainRow where
  childOrgId : Nat
  parentOrgId : Nat
  sharePercentage : Nat
  effectiveOwnership : Nat
  depth : Nat
  chain : String
deriving DecidableEq, Repr

/-- A row of the final SELECT of getEffectiveOwnership. -/
structure EffectiveOwnershipRow where
  childOrgId : Nat
  childName : String
  effectiveOwnership : Nat
  depth : Nat
  chain : String
deriving DecidableEq, Repr

/-- Non-recursive branch of the CTE: one depth-1 row per shareholding edge
whose parentOrgId is the root, carrying the edge sharePercentage as its
effective ownership. -/
def ownershipBase (shs : List Shareholding) (parentOrgId : Nat) :
    List OwnershipChainRow :=
  (shs.filter fun sh => sh.parentOrgId == parentOrgId).map fun sh =>
    { childOrgId := sh.childOrgId, parentOrgId := sh.parentOrgId,
      sharePercentage := sh.sharePercentage,
      effectiveOwnership := sh.sharePercentage, depth := 1,
      chain := toString sh.parentOrgId ++ "->" ++ toString sh.childOrgId }

/-- Recursive branch of the CTE for one existing row: join with every
shareholding edge hanging off the row's child and compose ownership by
basis-point multiplication.  The DECIMAL quotient is stored into the
INT-typed CTE column, which rounds half away from zero; for the non-negative
operands here that is the floor of the product plus five thousand over ten
thousand. -/
def ownershipStep (shs : List Shareholding) (oc : OwnershipChainRow) :
    List OwnershipChainRow :=
  (shs.filter fun sh => sh.parentOrgId == oc.childOrgId).map fun sh =>
    { childOrgId := sh.childOrgId, parentOrgId := oc.parentOrgId,
      sharePercentage := sh.sharePercentage,
      effectiveOwnership :=
        (oc.effectiveOwnership * sh.sharePercentage + 5000) / 10000,
      depth := oc.depth + 1,
      chain := oc.chain ++ "->" ++ toString sh.childOrgId }

/-- Iterated recursive branch: from the current frontier, extend every row
whose depth is below maxDepth, collecting all rows produced in later rounds.
The fuel argument bounds the number of rounds; since every produced row is
one deeper than its parent, maxDepth rounds are always enough. -/
def ownershipIterate (shs : List Shareholding) (maxDepth : Nat) :
    Nat → List OwnershipChainRow → List OwnershipChainRow
  | 0, _ => []
  | fuel + 1, frontier =>
    let next := (frontier.filter fun oc => oc.depth < maxDepth).flatMap
      (ownershipStep shs)
    next ++ ownershipIterate shs maxDepth fuel next

/-- All rows of the ownership_chain CTE. -/
def ownershipChainRows (shs : List Shareholding) (parentOrgId maxDepth : Nat) :
    List OwnershipChainRow :=
  ownershipBase shs parentOrgId ++
    ownershipIterate shs maxDepth maxDepth (ownershipBase shs parentOrgId)

/-- Ordering used by ORDER BY effectiveOwnership DESC. -/
def ownershipOrder (a b : EffectiveOwnershipRow) : Prop :=
  b.effectiveOwnership ≤ a.effectiveOwnership

instance : DecidableRel ownershipOrder := fun a b =>
  inferInstanceAs (Decidable (b.effectiveOwnership ≤ a.effectiveOwnership))

instance : IsTotal EffectiveOwnershipRow ownershipOrder :=
  ⟨fun a b => Nat.le_total b.effectiveOwnership a.effectiveOwnership⟩

instance : IsTrans EffectiveOwnershipRow ownershipOrder :=
  ⟨fun _ _ _ hab hbc => Nat.le_trans hbc hab⟩

/-- hypergraph-db.ts getEffectiveOwnership: evaluate the recursive CTE, join
organizations on the child id for its name (an INNER JOIN: rows whose child
organization is missing are dropped), keep rows with at least one hundred
basis points of effective ownership, and sort descending. -/
def getEffectiveOwnership (store : HypergraphStore) (parentOrgId maxDepth : Nat) :
    List EffectiveOwnershipRow :=
  let joined := (ownershipChainRows store.shareholdings parentOrgId maxDepth).filterMap
    fun oc =>
      (store.organizations.find? fun o => o.id == oc.childOrgId).map fun o =>
        { childOrgId := oc.childOrgId, childName := o.name,
          effectiveOwnership := oc.effectiveOwnership, depth := oc.depth,
          chain := oc.chain }
  (joined.filter fun row => decide (100 ≤ row.effectiveOwnership)).insertionSort
    ownershipOrder

/-- The tRPC endpoint hypergraph.getEffectiveOwnership passes an optional
maxDepth; the TypeScript signature defaults a missing value to ten. -/
def getEffectiveOwnershipRouter (store : HypergraphStore) (parentOrgId : Nat)
    (maxDepth : Option Nat) : List EffectiveOwnershipRow :=
  getEffectiveOwnership store parentOrgId (maxDepth.getD 10)

/-! ## Relationship Query Engine (hypergraph-db.ts getRelationshipsByEntity) -/

/-- A row of the SELECT in getRelationshipsByEntity.  The LEFT JOIN on
relationship_types makes the type columns nullable. -/
structure RelationshipRow where
  relationshipId : Nat
  relationshipType : Option String
  category : Option String
  isDirected : Option Bool
  direction : String
  connectedEntityId : Nat
  connectedEntityType : String
  weight : Option Int
  validFrom : Nat
  validTo : Option Nat
deriving DecidableEq, Repr

/-- hypergraph-db.ts getRelationshipsByEntity: scan relationships where the
queried pair appears as source or as target (an OR of two AND conjunctions);
LEFT JOIN the relationship type by id.  The CASE expressions computing
direction and the connected side compare only the entity id, exactly as the
SQL does (the entity type takes no part in them). -/
def getRelationshipsByEntity (store : HypergraphStore) (entityType : String)
    (entityId : Nat) : List RelationshipRow :=
  (store.relationships.filter fun r =>
      (r.sourceEntityId == entityId && r.sourceEntityType == entityType) ||
      (r.targetEntityId == entityId && r.targetEntityType == entityType)).map
    fun r =>
      let rt := store.relationshipTypes.find? fun t => t.id == r.relationshipTypeId
      { relationshipId := r.id,
        relationshipType := rt.map fun t => t.name,
        category := rt.map fun t => t.category,
        isDirected := rt.map fun t => t.isDirected,
        direction := if r.sourceEntityId == entityId then "outgoing" else "incoming",
        connectedEntityId :=
          if r.sourceEntityId == entityId then r.targetEntityId else r.sourceEntityId,
        connectedEntityType :=
          if r.sourceEntityId == entityId then r.targetEntityType else r.sourceEntityType,
        weight := r.weight, validFrom := r.validFrom, validTo := r.validTo }

/-! ## Hypergraph Neighborhood Engine (hypergraph-db.ts getHypergraphNeighborhood)

The SQL keeps every incidence whose hyperedgeId appears among the incidences
of the queried node, LEFT JOINs hyperedges and nodes, groups by hyperedge and
aggregates GROUP_CONCAT of CONCAT(label, ' (', role, ')').  In MySQL, CONCAT
returns NULL when any argument is NULL (a missing node label from the LEFT
JOIN, or a NULL role) and GROUP_CONCAT skips NULL values, so such
participants are silently dropped.  The comma-separated participant string is
modelled as the list of its entries. -/

/-- A grouped row of getHypergraphNeighborhood. -/
structure NeighborhoodRow where
  hyperedgeId : Nat
  edgeType : String
  label : Option String
  weight : Option Int
  participants : List String
deriving DecidableEq, Repr

/-- CONCAT(node.label, ' (', incidence.role, ')') under the LEFT JOIN on
hypergraph_nodes: NULL (none) when the node row is missing or the role is
NULL, since SQL CONCAT propagates NULL. -/
def participantEntry (store : HypergraphStore) (i : HypergraphIncidence) :
    Option String :=
  match store.hypergraphNodes.find? fun n => n.id == i.nodeId, i.role with
  | some n, some r => some (n.label ++ " (" ++ r ++ ")")
  | _, _ => none

/-- hypergraph-db.ts getHypergraphNeighborhood: one aggregated row per
hyperedge having an incidence with the queried node, listing the non-NULL
participant entries of all incidences of that hyperedge. -/
def getHypergraphNeighborhood (store : HypergraphStore) (nodeId : Nat) :
    List NeighborhoodRow :=
  (store.hypergraphHyperedges.filter fun e =>
      store.hypergraphIncidences.any fun i =>
        i.hyperedgeId == e.id && i.nodeId == nodeId).map
    fun e =>
      { hyperedgeId := e.id, edgeType := e.edgeType, label := e.label,
        weight := e.weight,
        participants :=
          (store.hypergraphIncidences.filter fun i => i.hyperedgeId == e.id).filterMap
            (participantEntry store) }

/-! ## Stock-Flow Projector (hypergraph-db.ts getStockFlowDynamics)

Per stock of the entity, the SQL LEFT JOINs every flow touching the stock as
source or target, and sums CASE expressions: the rate counts toward
totalInflow when the flow targets the stock and toward totalOutflow when the
flow sources it.  SUM skips NULL rates and the outer COALESCE turns an empty
sum into zero, so a NULL currentRate contributes nothing. -/

/-- A row of getStockFlowDynamics. -/
structure StockFlowRow where
  stockId : Nat
  stockName : String
  currentValue : Int
  unit : Option String
  totalInflow : Int
  totalOutflow : Int
  projectedValue : Int
deriving DecidableEq, Repr

/-- hypergraph-db.ts getStockFlowDynamics: net one-step projection per stock,
with no clamping to minValue or maxValue. -/
def getStockFlowDynamics (store : HypergraphStore) (entityType : String)
    (entityId : Nat) : List StockFlowRow :=
  (store.stocks.filter fun s =>
      s.entityType == entityType && s.entityId == entityId).map
    fun s =>
      let joined := store.flows.filter fun f =>
        f.sourceStockId == some s.id || f.targetStockId == some s.id
      let totalInflow := (joined.map fun f =>
        if f.targetStockId == some s.id then f.currentRate.getD 0 else 0).sum
      let totalOutflow := (joined.map fun f =>
        if f.sourceStockId == some s.id then f.currentRate.getD 0 else 0).sum
      { stockId := s.id, stockName := s.stockName,
        currentValue := s.currentValue, unit := s.unit,
        totalInflow := totalInflow, totalOutflow := totalOutflow,
        projectedValue := s.currentValue + totalInflow - totalOutflow }

/-! ## Input validation at the tRPC boundary (routers.ts zod schemas)

Of the numeric inputs the spec lists under InvalidArgument, only the
sharePercentage of hypergraph.createShareholding carries zod range
constraints (.min(0).max(10000), routers.ts line 559); zod parsing runs
before the procedure body, hence before any store access.  debts.addPayment
declares amount as a plain z.number() and hypergraph.getEffectiveOwnership
declares maxDepth as a plain optional z.number(): neither is range checked. -/

/-- Input of hypergraph.createShareholding before validation; the raw
sharePercentage is an arbitrary number. -/
structure ShareholdingInput where
  childOrgId : Nat
  parentOrgId : Nat
  sharePercentage : Int
deriving DecidableEq, Repr

/-- The zod range check on sharePercentage: .min(0).max(10000). -/
def validShareholdingInput (i : ShareholdingInput) : Bool :=
  decide (0 ≤ i.sharePercentage) && decide (i.sharePercentage ≤ 10000)

/-- hypergraph.createShareholding as exposed by the router: zod parsing
rejects an out-of-range sharePercentage before the handler runs (the store is
not consulted on the error path); otherwise the edge is inserted. -/
def createShareholdingChecked (store : HypergraphStore) (i : ShareholdingInput) :
    Except String HypergraphStore :=
  if validShareholdingInput i then
    Except.ok { store with
      shareholdings := store.shareholdings ++
        [{ childOrgId := i.childOrgId, parentOrgId := i.parentOrgId,
           sharePercentage := i.sharePercentage.toNat }] }
  else
    Except.error "invalid sharePercentage"

/-! ## Ownership chains: path characterization -/

/-- A list of shareholding edges forms a chain from a given organization:
each edge is a row of the table and hangs off the endpoint reached so far. -/
def OwnershipPathFrom (shs : List Shareholding) : Nat → List Shareholding → Prop
  | _, [] => True
  | x, e :: es => e ∈ shs ∧ e.parentOrgId = x ∧ OwnershipPathFrom shs e.childOrgId es

/-- Endpoint of a chain of shareholding edges started at an organization. -/
def pathEnd : Nat → List Shareholding → Nat
  | x, [] => x
  | _, e :: es => pathEnd e.childOrgId es

/-- Accumulated effective ownership of a chain, in basis points: fold the
CTE's fixed-point multiplication (accumulated ownership times
sharePercentage over ten thousand, rounded half away from zero on storage
into the INT column) from the full-ownership seed. -/
def chainEffBps (es : List Shareholding) : Nat :=
  es.foldl (fun acc e => (acc * e.sharePercentage + 5000) / 10000) 10000

theorem chainEffBps_singleton (e : Shareholding) :
    chainEffBps [e] = e.sharePercentage := by
  simp only [chainEffBps, List.foldl_cons, List.foldl_nil]
  omega

theorem chainEffBps_append (es : List Shareholding) (e : Shareholding) :
    chainEffBps (es ++ [e])
      = (chainEffBps es * e.sharePercentage + 5000) / 10000 := by
  simp [chainEffBps, List.foldl_append]

theorem pathEnd_append (x : Nat) (es : List Shareholding) (e : Shareholding) :
    pathEnd x (es ++ [e]) = e.childOrgId := by
  induction es generalizing x with
  | nil => rfl
  | cons f fs ih => simpa [pathEnd] using ih f.childOrgId

theorem ownershipPathFrom_append (shs : List Shareholding) (x : Nat)
    (es : List Shareholding) (e : Shareholding)
    (hes : OwnershipPathFrom shs x es) (he : e ∈ shs)
    (hend : e.parentOrgId = pathEnd x es) :
    OwnershipPathFrom shs x (es ++ [e]) := by
  induction es generalizing x with
  | nil => exact ⟨he, hend, trivial⟩
  | cons f fs ih =>
    obtain ⟨hf, hfx, hrest⟩ := hes
    exact ⟨hf, hfx, ih f.childOrgId hrest hend⟩

/-- The invariant carried by the CTE soundness proof: a working row is
realized by some nonempty chain from the root whose endpoint, length and
accumulated basis points match the row. -/
def RowReachable (shs : List Shareholding) (root : Nat)
    (oc : OwnershipChainRow) : Prop :=
  ∃ es : List Shareholding, es ≠ [] ∧ OwnershipPathFrom shs root es ∧
    pathEnd root es = oc.childOrgId ∧ es.length = oc.depth ∧
    chainEffBps es = oc.effectiveOwnership

theorem rowReachable_base (shs : List Shareholding) (root : Nat)
    (oc : OwnershipChainRow) (h : oc ∈ ownershipBase shs root) :
    RowReachable shs root oc := by
  simp only [ownershipBase, List.mem_map, List.mem_filter] at h
  obtain ⟨sh, ⟨hmem, hroot⟩, rfl⟩ := h
  refine ⟨[sh], by simp, ⟨hmem, by simpa using hroot, trivial⟩, rfl, rfl, ?_⟩
  exact chainEffBps_singleton sh

theorem rowReachable_step (shs : List Shareholding) (root : Nat)
    (oc row : OwnershipChainRow) (hoc : RowReachable shs root oc)
    (h : row ∈ ownershipStep shs oc) : RowReachable shs root row := by
  simp only [ownershipStep, List.mem_map, List.mem_filter] at h
  obtain ⟨sh, ⟨hmem, hhang⟩, rfl⟩ := h
  obtain ⟨es, _, hpath, hend, hlen, heff⟩ := hoc
  have hhang2 : sh.parentOrgId = oc.childOrgId := by simpa using hhang
  refine ⟨es ++ [sh], by simp, ?_, ?_, ?_, ?_⟩
  · exact ownershipPathFrom_append shs root es sh hpath hmem
      (hhang2.trans hend.symm)
  · simpa using pathEnd_append root es sh
  · simpa using hlen
  · simpa [heff] using chainEffBps_append es sh

theorem rowReachable_iterate (shs : List Shareholding) (root maxDepth : Nat) :
    ∀ (fuel : Nat) (frontier : List OwnershipChainRow),
      (∀ oc ∈ frontier, RowReachable shs root oc) →
      ∀ row ∈ ownershipIterate shs maxDepth fuel frontier,
        RowReachable shs root row := by
  intro fuel
  induction fuel with
  | zero => intro frontier _ row h; simp [ownershipIterate] at h
  | succ n ih =>
    intro frontier hfrontier row hrow
    simp only [ownershipIterate, List.mem_append] at hrow
    have hnext : ∀ oc ∈ (frontier.filter fun oc =>
        decide (oc.depth < maxDepth)).flatMap (ownershipStep shs),
        RowReachable shs root oc := by
      intro oc hoc
      simp only [List.mem_flatMap, List.mem_filter] at hoc
      obtain ⟨parent, ⟨hparent, _⟩, hstep⟩ := hoc
      exact rowReachable_step shs root parent oc (hfrontier parent hparent) hstep
    rcases hrow with hrow | hrow
    · exact hnext row hrow
    · exact ih _ hnext row hrow

/-- Every row of the ownership_chain CTE is realized by a chain of
shareholding edges from the root. -/
theorem rowReachable_chainRows (shs : List Shareholding)
    (root maxDepth : Nat) (row : OwnershipChainRow)
    (h : row ∈ ownershipChainRows shs root maxDepth) :
    RowReachable shs root row := by
  simp only [ownershipChainRows, List.mem_append] at h
  rcases h with h | h
  · exact rowReachable_base shs root row h
  · exact rowReachable_iterate shs root maxDepth maxDepth
      (ownershipBase shs root) (fun oc hoc => rowReachable_base shs root oc hoc)
      row h

/-- Depth bound for the iterated recursive branch: only rows strictly below
maxDepth are extended, so every produced row is at most maxDepth deep. -/
theorem ownershipIterate_depth_le (shs : List Shareholding) (maxDepth : Nat) :
    ∀ (fuel : Nat) (frontier : List OwnershipChainRow),
      ∀ row ∈ ownershipIterate shs maxDepth fuel frontier,
        row.depth ≤ maxDepth := by
  intro fuel
  induction fuel with
  | zero => intro frontier row h; simp [ownershipIterate] at h
  | succ n ih =>
    intro frontier row hrow
    simp only [ownershipIterate, List.mem_append] at hrow
    rcases hrow with hrow | hrow
    · simp only [List.mem_flatMap, List.mem_filter, decide_eq_true_eq] at hrow
      obtain ⟨parent, ⟨_, hlt⟩, hstep⟩ := hrow
      simp only [ownershipStep, List.mem_map, List.mem_filter] at hstep
      obtain ⟨sh, _, rfl⟩ := hstep
      exact hlt
    · exact ih _ row hrow

theorem ownershipChainRows_depth_le (shs : List Shareholding)
    (root maxDepth : Nat) (hmd : 1 ≤ maxDepth) (row : OwnershipChainRow)
    (h : row ∈ ownershipChainRows shs root maxDepth) : row.depth ≤ maxDepth := by
  simp only [ownershipChainRows, List.mem_append] at h
  rcases h with h | h
  · simp only [ownershipBase, List.mem_map, List.mem_filter] at h
    obtain ⟨sh, _, rfl⟩ := h
    exact hmd
  · exact ownershipIterate_depth_le shs maxDepth maxDepth _ row h

/-- Unpack membership in the final getEffectiveOwnership result down to a
CTE row: same child, ownership, depth and chain, child organization present,
and at least one hundred basis points. -/
theorem mem_getEffectiveOwnership (store : HypergraphStore)
    (parentOrgId maxDepth : Nat) (row : EffectiveOwnershipRow)
    (h : row ∈ getEffectiveOwnership store parentOrgId maxDepth) :
    100 ≤ row.effectiveOwnership ∧
    ∃ oc ∈ ownershipChainRows store.shareholdings parentOrgId maxDepth,
      oc.childOrgId = row.childOrgId ∧
      oc.effectiveOwnership = row.effectiveOwnership ∧
      oc.depth = row.depth ∧ oc.chain = row.chain := by
  unfold getEffectiveOwnership at h
  rw [List.mem_insertionSort] at h
  rw [List.mem_filter] at h
  obtain ⟨hmem, hbps⟩ := h
  refine ⟨by simpa using hbps, ?_⟩
  rw [List.mem_filterMap] at hmem
  obtain ⟨oc, hoc, hjoin⟩ := hmem
  rcases hfind : store.organizations.find? fun o => o.id == oc.childOrgId with
    _ | o
  · rw [hfind] at hjoin; cases hjoin
  · rw [hfind] at hjoin
    cases hjoin
    exact ⟨oc, hoc, rfl, rfl, rfl, rfl⟩

/-! ## Stock-flow sums: the joined CASE sums agree with direct filters -/

/-- Spec-side total inflow of a stock: the sum of currentRate over the flow
rows whose targetStockId is the stock (a NULL rate counts as zero, matching
SUM over NULL-skipping CASE values with COALESCE). -/
def specTotalInflow (flows : List Flow) (stockId : Nat) : Int :=
  ((flows.filter fun f => f.targetStockId == some stockId).map
    fun f => f.currentRate.getD 0).sum

/-- Spec-side total outflow of a stock: the sum of currentRate over the flow
rows whose sourceStockId is the stock. -/
def specTotalOutflow (flows : List Flow) (stockId : Nat) : Int :=
  ((flows.filter fun f => f.sourceStockId == some stockId).map
    fun f => f.currentRate.getD 0).sum

theorem joined_inflow_eq (flows : List Flow) (sid : Nat) :
    ((flows.filter fun f =>
        f.sourceStockId == some sid || f.targetStockId == some sid).map
      fun f => if f.targetStockId == some sid then f.currentRate.getD 0 else 0).sum
    = specTotalInflow flows sid := by
  induction flows with
  | nil => rfl
  | cons f fs ih =>
    simp only [specTotalInflow] at ih ⊢
    by_cases ht : f.targetStockId = some sid <;>
      by_cases hs : f.sourceStockId = some sid <;>
        simp [List.filter_cons, ht, hs] at ih ⊢ <;> omega

theorem joined_outflow_eq (flows : List Flow) (sid : Nat) :
    ((flows.filter fun f =>
        f.sourceStockId == some sid || f.targetStockId == some sid).map
      fun f => if f.sourceStockId == some sid then f.currentRate.getD 0 else 0).sum
    = specTotalOutflow flows sid := by
  induction flows with
  | nil => rfl
  | cons f fs ih =>
    simp only [specTotalOutflow] at ih ⊢
    by_cases hs : f.sourceStockId = some sid <;>
      by_cases ht : f.targetStockId = some sid <;>
        simp [List.filter_cons, ht, hs] at ih ⊢ <;> omega

/-! ## Hyperedge grouping: one aggregated row per hyperedge -/

theorem countP_id_eq_one (l : List HypergraphHyperedge) (e : HypergraphHyperedge)
    (hpw : l.Pairwise fun a b => a.id ≠ b.id) (he : e ∈ l) :
    l.countP (fun x => x.id == e.id) = 1 := by
  induction l with
  | nil => cases he
  | cons a as ih =>
    rw [List.pairwise_cons] at hpw
    obtain ⟨ha, has⟩ := hpw
    rcases List.mem_cons.mp he with rfl | he2
    · rw [List.countP_cons_of_pos _ _ (by simp)]
      have hzero : as.countP (fun x => x.id == e.id) = 0 := by
        rw [List.countP_eq_zero]
        intro b hb
        simp [Ne.symm (ha b hb)]
      rw [hzero]
    · rw [List.countP_cons_of_neg _ _ (by simp [ha e he2])]
      exact ih has he2

/-- Grouping by hyperedge yields exactly one aggregated row per hyperedge
incident to the queried node, provided hyperedge ids are unique (the table's
primary key). -/
theorem neighborhood_countP_eq_one (store : HypergraphStore) (nodeId : Nat)
    (e : HypergraphHyperedge)
    (hpw : store.hypergraphHyperedges.Pairwise fun a b => a.id ≠ b.id)
    (he : e ∈ store.hypergraphHyperedges)
    (hinc : ∃ i ∈ store.hypergraphIncidences,
      i.hyperedgeId = e.id ∧ i.nodeId = nodeId) :
    (getHypergraphNeighborhood store nodeId).countP
      (fun row => row.hyperedgeId == e.id) = 1 := by
  unfold getHypergraphNeighborhood
  rw [List.countP_map]
  have hpwf : (store.hypergraphHyperedges.filter fun x =>
      store.hypergraphIncidences.any fun i =>
        i.hyperedgeId == x.id && i.nodeId == nodeId).Pairwise
      (fun a b => a.id ≠ b.id) :=
    hpw.sublist (List.filter_sublist _)
  have hef : e ∈ store.hypergraphHyperedges.filter fun x =>
      store.hypergraphIncidences.any fun i =>
        i.hyperedgeId == x.id && i.nodeId == nodeId := by
    obtain ⟨i, hi, h1, h2⟩ := hinc
    refine List.mem_filter.mpr ⟨he, ?_⟩
    rw [List.any_eq_true]
    exact ⟨i, hi, by simp [h1, h2]⟩
  exact countP_id_eq_one _ e hpwf hef

/-! ## Concrete stores used to instantiate the theorems -/

/-- A hypergraph store with every table empty. -/
def emptyHG : HypergraphStore :=
  { organizations := [], shareholdings := [], relationshipTypes := [],
    relationships := [], hypergraphNodes := [], hypergraphHyperedges := [],
    hypergraphIncidences := [], stocks := [], flows := [] }

/-- Ownership chain A owns 60 percent of B, B owns 40 percent of C. -/
def chainDemoStore : HypergraphStore :=
  { emptyHG with
    organizations := [⟨1, "A"⟩, ⟨2, "B"⟩, ⟨3, "C"⟩],
    shareholdings := [⟨2, 1, 6000⟩, ⟨3, 2, 4000⟩] }

/-- The depth-2 row for C produced by chainDemoStore. -/
def rowC : EffectiveOwnershipRow :=
  { childOrgId := 3, childName := "C", effectiveOwnership := 2400,
    depth := 2, chain := "1->2->3" }

/-- Cyclic cross-shareholding A owns all of B and B owns all of A. -/
def cycDemoStore : HypergraphStore :=
  { emptyHG with
    organizations := [⟨1, "A"⟩, ⟨2, "B"⟩],
    shareholdings := [⟨2, 1, 10000⟩, ⟨1, 2, 10000⟩] }

/-- The depth-1 row for B produced by cycDemoStore. -/
def rowCyc : EffectiveOwnershipRow :=
  { childOrgId := 2, childName := "B", effectiveOwnership := 10000,
    depth := 1, chain := "1->2" }

/-- A single direct edge, used to show a maxDepth of zero still yields rows. -/
def shallowDemoStore : HypergraphStore :=
  { emptyHG with
    organizations := [⟨1, "A"⟩, ⟨2, "B"⟩],
    shareholdings := [⟨2, 1, 10000⟩] }

/-- One stock with one inflow, one outflow and one dangling flow. -/
def stockDemoStore : HypergraphStore :=
  { emptyHG with
    stocks := [{ id := 1, entityId := 1, entityType := "organization",
                 stockName := "cash", currentValue := 100000, unit := none,
                 minValue := none, maxValue := none }],
    flows := [{ id := 1, flowName := "revenue", sourceStockId := none,
                targetStockId := some 1, currentRate := some 5000 },
              { id := 2, flowName := "costs", sourceStockId := some 1,
                targetStockId := none, currentRate := some 3000 },
              { id := 3, flowName := "dangling", sourceStockId := none,
                targetStockId := none, currentRate := some 999 }] }

/-- The stock row of stockDemoStore. -/
def stockDemo : Stock :=
  { id := 1, entityId := 1, entityType := "organization", stockName := "cash",
    currentValue := 100000, unit := none, minValue := none, maxValue := none }

/-- A relationship between two entities with distinct entity ids. -/
def relDemoRel : Relationship :=
  { id := 1, relationshipTypeId := 5, sourceEntityId := 1,
    sourceEntityType := "user", targetEntityId := 2,
    targetEntityType := "organization", weight := some 100,
    validFrom := 0, validTo := none }

def relDemoStore : HypergraphStore :=
  { emptyHG with
    relationshipTypes := [⟨5, "owns", "ownership", true, false⟩],
    relationships := [relDemoRel] }

/-- A relationship whose source and target share the entity id 1 while the
entity types differ; the id-only CASE comparisons misreport its direction. -/
def relCexRel : Relationship :=
  { id := 1, relationshipTypeId := 5, sourceEntityId := 1,
    sourceEntityType := "user", targetEntityId := 1,
    targetEntityType := "organization", weight := none,
    validFrom := 0, validTo := none }

def relCexStore : HypergraphStore :=
  { emptyHG with
    relationshipTypes := [⟨5, "owns", "ownership", true, false⟩],
    relationships := [relCexRel] }

/-- A three-participant hyperedge, all roles present. -/
def hgDemoStore : HypergraphStore :=
  { emptyHG with
    hypergraphNodes := [⟨1, "org", 10, "Alpha"⟩, ⟨2, "org", 20, "Beta"⟩,
                        ⟨3, "org", 30, "Gamma"⟩],
    hypergraphHyperedges := [{ id := 7, edgeType := "deal",
                               label := some "D", weight := none }],
    hypergraphIncidences := [⟨7, 1, some "member"⟩, ⟨7, 2, some "member"⟩,
                             ⟨7, 3, some "lead"⟩] }

/-- A hyperedge where the second participant's role is NULL. -/
def hgCexStore : HypergraphStore :=
  { emptyHG with
    hypergraphNodes := [⟨1, "org", 10, "Alpha"⟩, ⟨2, "org", 20, "Beta"⟩],
    hypergraphHyperedges := [{ id := 7, edgeType := "deal",
                               label := none, weight := none }],
    hypergraphIncidences := [⟨7, 1, some "member"⟩, ⟨7, 2, none⟩] }

/-- A debt of 100.00 with 50.00 remaining. -/
def overpayDebt : Debt :=
  { id := 1, organizationId := 1, creditorName := "Lender",
    originalAmount := 10000, remainingAmount := 5000,
    status := DebtStatus.active }

def overpayStore : FinanceStore := { debts := [overpayDebt], debtPayments := [] }

/-- A payment of 80.00 against the 50.00 remaining: an over-payment. -/
def overpayInput : AddPaymentInput :=
  { debtId := 1, amount := 8000, paymentDate := 0, notes := none }

/-- An untouched debt for the negative-payment scenarios. -/
def negDebt : Debt :=
  { id := 1, organizationId := 1, creditorName := "Lender",
    originalAmount := 100000, remainingAmount := 100000,
    status := DebtStatus.active }

def negStore : FinanceStore := { debts := [negDebt], debtPayments := [] }

/-- A negative payment of minus 500.00. -/
def negInput : AddPaymentInput :=
  { debtId := 1, amount := -50000, paymentDate := 0, notes := none }

/-- A store holding no debts at all. -/
def missingDebtStore : FinanceStore := { debts := [], debtPayments := [] }

def missingDebtInput : AddPaymentInput :=
  { debtId := 42, amount := 1000, paymentDate := 0, notes := none }

/-- A small debt plus a negative payment used for the validation claim. -/
def validationStore : FinanceStore :=
  { debts := [{ id := 1, organizationId := 1, creditorName := "L",
                originalAmount := 1000, remainingAmount := 1000,
                status := DebtStatus.active }],
    debtPayments := [] }

def validationNegInput : AddPaymentInput :=
  { debtId := 1, amount := -5, paymentDate := 0, notes := none }

/-- A sharePercentage of 20000 basis points: out of range. -/
def badShareInput : ShareholdingInput :=
  { childOrgId := 1, parentOrgId := 2, sharePercentage := 20000 }

/-- A second negative payment input, aimed at an empty store. -/
def smallNegInput : AddPaymentInput :=
  { debtId := 3, amount := -7, paymentDate := 0, notes := none }

/-! ## Claims -/

/-- C1: for every existing debt, addPayment stores a remaining amount of
max 0 (remaining minus amount); the status becomes paid exactly when the new
remaining amount is zero and is left unchanged otherwise, so an over-payment
clamps the stored amount to exactly zero and marks the debt paid. -/
theorem addPayment_clamps_and_marks_paid (s : FinanceStore)
    (input : AddPaymentInput) (d : Debt)
    (h : getDebtById s input.debtId = some d) :
    (addPayment s input).2.success = true ∧
    getDebtById (addPayment s input).1 input.debtId =
      some { d with
        remainingAmount := max 0 (d.remainingAmount - input.amount),
        status := if max 0 (d.remainingAmount - input.amount) = 0
                  then DebtStatus.paid else d.status } :=
  addPayment_spec s input d h

theorem addPayment_clamps_and_marks_paid_witness :
    getDebtById overpayStore 1 = some overpayDebt ∧
    ((addPayment overpayStore overpayInput).2.success = true ∧
     getDebtById (addPayment overpayStore overpayInput).1 1 =
       some { overpayDebt with
         remainingAmount := max 0 (overpayDebt.remainingAmount - overpayInput.amount),
         status := if max 0 (overpayDebt.remainingAmount - overpayInput.amount) = 0
                   then DebtStatus.paid else overpayDebt.status }) ∧
    getDebtById (addPayment overpayStore overpayInput).1 1 =
      some { id := 1, organizationId := 1, creditorName := "Lender",
             originalAmount := 10000, remainingAmount := 0,
             status := DebtStatus.paid } :=
  ⟨by decide,
   addPayment_clamps_and_marks_paid overpayStore overpayInput overpayDebt (by decide),
   by decide⟩

/-- C2: every row of getEffectiveOwnership is realized by a chain of
shareholding edges from the root whose length is the row's depth and whose
basis-point product, composed step by step as accumulated ownership times
sharePercentage over ten thousand rounded half away from zero on storage
into the INT-typed CTE column, is the row's effective ownership;
a depth-1 row carries the sharePercentage of a direct edge; and for the
concrete chain A to B at 6000 bps and B to C at 4000 bps the result contains
a row for C with 2400 bps at depth 2. -/
theorem effectiveOwnership_multiplicative :
    (∀ (store : HypergraphStore) (root maxDepth : Nat)
        (row : EffectiveOwnershipRow),
        row ∈ getEffectiveOwnership store root maxDepth →
        ∃ es : List Shareholding, es ≠ [] ∧
          OwnershipPathFrom store.shareholdings root es ∧
          pathEnd root es = row.childOrgId ∧
          es.length = row.depth ∧
          chainEffBps es = row.effectiveOwnership ∧
          (row.depth = 1 → ∃ e ∈ store.shareholdings,
            e.parentOrgId = root ∧ e.childOrgId = row.childOrgId ∧
            e.sharePercentage = row.effectiveOwnership)) ∧
    rowC ∈ getEffectiveOwnership chainDemoStore 1 10 := by
  constructor
  · intro store root maxDepth row hrow
    obtain ⟨-, oc, hoc, hchild, heff, hdepth, -⟩ :=
      mem_getEffectiveOwnership store root maxDepth row hrow
    obtain ⟨es, hne, hpath, hend, hlen, heffes⟩ :=
      rowReachable_chainRows store.shareholdings root maxDepth oc hoc
    refine ⟨es, hne, hpath, by rw [hend, hchild], by rw [hlen, hdepth], by
      rw [heffes, heff], ?_⟩
    intro hd1
    have hlen1 : es.length = 1 := by rw [hlen, hdepth, hd1]
    obtain ⟨e, rfl⟩ := List.length_eq_one.mp hlen1
    obtain ⟨hmem, hroot, -⟩ := hpath
    refine ⟨e, hmem, hroot, ?_, ?_⟩
    · have hpe : pathEnd root [e] = e.childOrgId := rfl
      rw [← hpe, hend, hchild]
    · rw [← chainEffBps_singleton e, heffes, heff]
  · decide

theorem effectiveOwnership_multiplicative_witness :
    ∃ es : List Shareholding, es ≠ [] ∧
      OwnershipPathFrom chainDemoStore.shareholdings 1 es ∧
      pathEnd 1 es = rowC.childOrgId ∧
      es.length = rowC.depth ∧
      chainEffBps es = rowC.effectiveOwnership ∧
      (rowC.depth = 1 → ∃ e ∈ chainDemoStore.shareholdings,
        e.parentOrgId = 1 ∧ e.childOrgId = rowC.childOrgId ∧
        e.sharePercentage = rowC.effectiveOwnership) :=
  effectiveOwnership_multiplicative.1 chainDemoStore 1 10 rowC
    effectiveOwnership_multiplicative.2

/-- C3: the traversal is cut off by the depth bound: for any shareholding
graph, cyclic ones included, no returned row is deeper than maxDepth (for
any positive maxDepth), and with the router default of ten no row beyond
depth ten appears; the embedding is structurally total, so the cyclic
A to B to A graph terminates by construction. -/
theorem effectiveOwnership_depth_bounded :
    (∀ (store : HypergraphStore) (root maxDepth : Nat), 1 ≤ maxDepth →
      ∀ row ∈ getEffectiveOwnership store root maxDepth,
        row.depth ≤ maxDepth) ∧
    (∀ (store : HypergraphStore) (root : Nat),
      ∀ row ∈ getEffectiveOwnershipRouter store root none, row.depth ≤ 10) := by
  have main : ∀ (store : HypergraphStore) (root maxDepth : Nat), 1 ≤ maxDepth →
      ∀ row ∈ getEffectiveOwnership store root maxDepth, row.depth ≤ maxDepth := by
    intro store root maxDepth hmd row hrow
    obtain ⟨-, oc, hoc, -, -, hdepth, -⟩ :=
      mem_getEffectiveOwnership store root maxDepth row hrow
    rw [← hdepth]
    exact ownershipChainRows_depth_le store.shareholdings root maxDepth hmd oc hoc
  exact ⟨main, fun store root => main store root 10 (by norm_num)⟩

theorem effectiveOwnership_depth_bounded_witness :
    (1 ≤ 10) ∧ rowCyc ∈ getEffectiveOwnership cycDemoStore 1 10 ∧
    rowCyc.depth ≤ 10 :=
  ⟨by decide, by decide,
   effectiveOwnership_depth_bounded.1 cycDemoStore 1 10 (by decide) rowCyc
     (by decide)⟩

/-- C4: when no debt with the given id exists, addPayment still appends the
payment record to the ledger, leaves the debts table untouched, and reports
success. -/
theorem addPayment_missing_debt_noop (s : FinanceStore)
    (input : AddPaymentInput) (h : getDebtById s input.debtId = none) :
    addPayment s input =
      ({ s with debtPayments := s.debtPayments ++
          [{ debtId := input.debtId, amount := input.amount,
             paymentDate := input.paymentDate, notes := input.notes }] },
       { success := true }) ∧
    (addPayment s input).1.debts = s.debts ∧
    (addPayment s input).2.success = true := by
  have h1 : getDebtById
      (createDebtPayment s
        { debtId := input.debtId, amount := input.amount,
          paymentDate := input.paymentDate, notes := input.notes })
      input.debtId = none := h
  have heq : addPayment s input =
      ({ s with debtPayments := s.debtPayments ++
          [{ debtId := input.debtId, amount := input.amount,
             paymentDate := input.paymentDate, notes := input.notes }] },
       { success := true }) := by
    simp only [addPayment, h1]
    rfl
  exact ⟨heq, by rw [heq], by rw [heq]⟩

theorem addPayment_missing_debt_noop_witness :
    getDebtById missingDebtStore 42 = none ∧
    (addPayment missingDebtStore missingDebtInput =
       ({ missingDebtStore with
          debtPayments := missingDebtStore.debtPayments ++
            [{ debtId := 42, amount := 1000, paymentDate := 0, notes := none }] },
        { success := true }) ∧
     (addPayment missingDebtStore missingDebtInput).1.debts =
       missingDebtStore.debts ∧
     (addPayment missingDebtStore missingDebtInput).2.success = true) :=
  ⟨by decide,
   addPayment_missing_debt_noop missingDebtStore missingDebtInput (by decide)⟩

/-- C5: for every stock of the entity, getStockFlowDynamics returns a row
whose totalInflow is the sum of currentRate over flows targeting the stock,
whose totalOutflow is the sum over flows sourcing it, and whose
projectedValue is currentValue plus totalInflow minus totalOutflow with no
clamping; flows with neither endpoint contribute to neither sum, and the
concrete 100000/5000/3000 example projects 102000. -/
theorem stockFlow_projection :
    (∀ (store : HypergraphStore) (entityType : String) (entityId : Nat)
        (s : Stock), s ∈ store.stocks → s.entityType = entityType →
        s.entityId = entityId →
        ∃ row ∈ getStockFlowDynamics store entityType entityId,
          row.stockId = s.id ∧
          row.totalInflow = specTotalInflow store.flows s.id ∧
          row.totalOutflow = specTotalOutflow store.flows s.id ∧
          row.projectedValue = s.currentValue + specTotalInflow store.flows s.id
            - specTotalOutflow store.flows s.id) ∧
    getStockFlowDynamics stockDemoStore "organization" 1 =
      [{ stockId := 1, stockName := "cash", currentValue := 100000,
         unit := none, totalInflow := 5000, totalOutflow := 3000,
         projectedValue := 102000 }] := by
  constructor
  · intro store entityType entityId s hs het heid
    have hmem : s ∈ store.stocks.filter fun s =>
        s.entityType == entityType && s.entityId == entityId :=
      List.mem_filter.mpr ⟨hs, by simp [het, heid]⟩
    have h1 := joined_inflow_eq store.flows s.id
    have h2 := joined_outflow_eq store.flows s.id
    exact ⟨_, List.mem_map_of_mem _ hmem, rfl, h1, h2, by rw [← h1, ← h2]⟩
  · decide

theorem stockFlow_projection_witness :
    ∃ row ∈ getStockFlowDynamics stockDemoStore "organization" 1,
      row.stockId = stockDemo.id ∧
      row.totalInflow = specTotalInflow stockDemoStore.flows stockDemo.id ∧
      row.totalOutflow = specTotalOutflow stockDemoStore.flows stockDemo.id ∧
      row.projectedValue = stockDemo.currentValue
        + specTotalInflow stockDemoStore.flows stockDemo.id
        - specTotalOutflow stockDemoStore.flows stockDemo.id :=
  stockFlow_projection.1 stockDemoStore "organization" 1 stockDemo
    (by decide) (by decide) (by decide)

/-- C6 (amended): a stored relationship row always appears in the query on
its source pair with direction outgoing and the connected fields taken from
the target side; it appears in the query on its target pair with direction
incoming and the connected fields taken from the source side provided
sourceEntityId and targetEntityId differ, because the SQL CASE expressions
compare entity ids only.  When the two ids coincide the target-side query
reports the row as outgoing with the connected fields from the target. -/
theorem relationships_direction_and_connected :
    ∀ (store : HypergraphStore) (r : Relationship), r ∈ store.relationships →
      (∃ row ∈ getRelationshipsByEntity store r.sourceEntityType r.sourceEntityId,
          row.relationshipId = r.id ∧ row.direction = "outgoing" ∧
          row.connectedEntityId = r.targetEntityId ∧
          row.connectedEntityType = r.targetEntityType) ∧
      (r.sourceEntityId ≠ r.targetEntityId →
        ∃ row ∈ getRelationshipsByEntity store r.targetEntityType r.targetEntityId,
          row.relationshipId = r.id ∧ row.direction = "incoming" ∧
          row.connectedEntityId = r.sourceEntityId ∧
          row.connectedEntityType = r.sourceEntityType) := by
  intro store r hr
  constructor
  · have hmem : r ∈ store.relationships.filter fun x =>
        (x.sourceEntityId == r.sourceEntityId &&
          x.sourceEntityType == r.sourceEntityType) ||
        (x.targetEntityId == r.sourceEntityId &&
          x.targetEntityType == r.sourceEntityType) :=
      List.mem_filter.mpr ⟨hr, by simp⟩
    refine ⟨_, List.mem_map_of_mem _ hmem, rfl, ?_, ?_, ?_⟩ <;> simp
  · intro hne
    have hmem : r ∈ store.relationships.filter fun x =>
        (x.sourceEntityId == r.targetEntityId &&
          x.sourceEntityType == r.targetEntityType) ||
        (x.targetEntityId == r.targetEntityId &&
          x.targetEntityType == r.targetEntityType) :=
      List.mem_filter.mpr ⟨hr, by simp⟩
    refine ⟨_, List.mem_map_of_mem _ hmem, rfl, ?_, ?_, ?_⟩ <;> simp [hne]

/-- C6 counterexample: with source (1, user) and target (1, organization),
the query on the target pair reports the row as outgoing, not incoming, so
the claim as stated fails when the two sides share an entity id. -/
theorem relationships_direction_cex :
    relCexRel ∈ relCexStore.relationships ∧
    ¬ (∃ row ∈ getRelationshipsByEntity relCexStore "organization" 1,
        row.relationshipId = 1 ∧ row.direction = "incoming") ∧
    (∃ row ∈ getRelationshipsByEntity relCexStore "organization" 1,
        row.relationshipId = 1 ∧ row.direction = "outgoing") := by decide

theorem relationships_direction_and_connected_witness :
    (∃ row ∈ getRelationshipsByEntity relDemoStore relDemoRel.sourceEntityType
        relDemoRel.sourceEntityId,
        row.relationshipId = relDemoRel.id ∧ row.direction = "outgoing" ∧
        row.connectedEntityId = relDemoRel.targetEntityId ∧
        row.connectedEntityType = relDemoRel.targetEntityType) ∧
    (∃ row ∈ getRelationshipsByEntity relDemoStore relDemoRel.targetEntityType
        relDemoRel.targetEntityId,
        row.relationshipId = relDemoRel.id ∧ row.direction = "incoming" ∧
        row.connectedEntityId = relDemoRel.sourceEntityId ∧
        row.connectedEntityType = relDemoRel.sourceEntityType) :=
  have h := relationships_direction_and_connected relDemoStore relDemoRel
    (by decide)
  ⟨h.1, h.2 (by decide)⟩

/-- C7 (amended): for every hyperedge incident to the queried node there is
exactly one aggregated row (hyperedge ids being unique), and that row's
participant list contains the entry label-space-parenthesised-role for every
incidence of the hyperedge whose node record exists and whose role is
non-NULL; participants with a NULL role or a missing node record are dropped
by the NULL-propagating CONCAT inside GROUP_CONCAT. -/
theorem neighborhood_lists_participants (store : HypergraphStore)
    (nodeId : Nat) (e : HypergraphHyperedge)
    (hpw : store.hypergraphHyperedges.Pairwise fun a b => a.id ≠ b.id)
    (he : e ∈ store.hypergraphHyperedges)
    (hinc : ∃ i ∈ store.hypergraphIncidences,
      i.hyperedgeId = e.id ∧ i.nodeId = nodeId) :
    (getHypergraphNeighborhood store nodeId).countP
        (fun row => row.hyperedgeId == e.id) = 1 ∧
    ∃ row ∈ getHypergraphNeighborhood store nodeId, row.hyperedgeId = e.id ∧
      ∀ i ∈ store.hypergraphIncidences, i.hyperedgeId = e.id →
        ∀ r, i.role = some r →
          ∀ n, (store.hypergraphNodes.find? fun m => m.id == i.nodeId) = some n →
            n.label ++ " (" ++ r ++ ")" ∈ row.participants := by
  refine ⟨neighborhood_countP_eq_one store nodeId e hpw he hinc, ?_⟩
  have hef : e ∈ store.hypergraphHyperedges.filter fun x =>
      store.hypergraphIncidences.any fun i =>
        i.hyperedgeId == x.id && i.nodeId == nodeId := by
    obtain ⟨i, hi, h1, h2⟩ := hinc
    refine List.mem_filter.mpr ⟨he, ?_⟩
    rw [List.any_eq_true]
    exact ⟨i, hi, by simp [h1, h2]⟩
  refine ⟨_, List.mem_map_of_mem _ hef, rfl, ?_⟩
  intro i hi hie r hr n hn
  refine List.mem_filterMap.mpr ⟨i, List.mem_filter.mpr ⟨hi, by simp [hie]⟩, ?_⟩
  simp [participantEntry, hn, hr]

/-- C7 counterexample: node Beta is incident to hyperedge 7 but its role is
NULL, so the aggregated row lists only Alpha, not all co-participants. -/
theorem neighborhood_drops_null_role_cex :
    (({ hyperedgeId := 7, nodeId := 2, role := none } : HypergraphIncidence)
        ∈ hgCexStore.hypergraphIncidences) ∧
    getHypergraphNeighborhood hgCexStore 1 =
      [{ hyperedgeId := 7, edgeType := "deal", label := none, weight := none,
         participants := ["Alpha (member)"] }] := by decide

theorem neighborhood_lists_participants_witness :
    (getHypergraphNeighborhood hgDemoStore 1).countP
        (fun row => row.hyperedgeId == 7) = 1 ∧
    ∃ row ∈ getHypergraphNeighborhood hgDemoStore 1, row.hyperedgeId = 7 ∧
      ∀ i ∈ hgDemoStore.hypergraphIncidences, i.hyperedgeId = 7 →
        ∀ r, i.role = some r →
          ∀ n, (hgDemoStore.hypergraphNodes.find? fun m => m.id == i.nodeId)
              = some n →
            n.label ++ " (" ++ r ++ ")" ∈ row.participants :=
  neighborhood_lists_participants hgDemoStore 1
    { id := 7, edgeType := "deal", label := some "D", weight := none }
    (by decide) (by decide) ⟨⟨7, 1, some "member"⟩, by decide, rfl, rfl⟩

/-- C8: every returned ownership row has at least one hundred basis points,
and the result is sorted in descending order of effective ownership. -/
theorem effectiveOwnership_filter_and_sort :
    ∀ (store : HypergraphStore) (root maxDepth : Nat),
      (∀ row ∈ getEffectiveOwnership store root maxDepth,
        100 ≤ row.effectiveOwnership) ∧
      (getEffectiveOwnership store root maxDepth).Sorted
        (fun a b => b.effectiveOwnership ≤ a.effectiveOwnership) := by
  intro store root maxDepth
  constructor
  · intro row hrow
    exact (mem_getEffectiveOwnership store root maxDepth row hrow).1
  · exact List.sorted_insertionSort ownershipOrder _

theorem effectiveOwnership_filter_and_sort_witness :
    100 ≤ rowC.effectiveOwnership ∧
    (getEffectiveOwnership chainDemoStore 1 10).Sorted
      (fun a b => b.effectiveOwnership ≤ a.effectiveOwnership) :=
  ⟨(effectiveOwnership_filter_and_sort chainDemoStore 1 10).1 rowC (by decide),
   (effectiveOwnership_filter_and_sort chainDemoStore 1 10).2⟩

/-- C9 (amended): only the basis-point input is validated before store
access: createShareholding rejects a sharePercentage outside zero to ten
thousand at zod parsing, without touching the store.  A negative amount is
not rejected: addPayment succeeds and writes the payment to the store.  A
maxDepth of zero (the embedding of depth at most zero) is not rejected
either: getEffectiveOwnership still runs and can return depth-1 rows. -/
theorem input_validation_basis_points_only :
    (∀ (store : HypergraphStore) (i : ShareholdingInput),
        i.sharePercentage < 0 ∨ 10000 < i.sharePercentage →
        createShareholdingChecked store i =
          Except.error "invalid sharePercentage") ∧
    (∀ (s : FinanceStore) (input : AddPaymentInput), input.amount < 0 →
        (addPayment s input).2.success = true ∧
        (addPayment s input).1.debtPayments = s.debtPayments ++
          [{ debtId := input.debtId, amount := input.amount,
             paymentDate := input.paymentDate, notes := input.notes }]) ∧
    getEffectiveOwnership shallowDemoStore 1 0 ≠ [] := by
  refine ⟨?_, ?_, by decide⟩
  · intro store i hbad
    have hfalse : ¬ (validShareholdingInput i = true) := by
      simp only [validShareholdingInput, Bool.and_eq_true, decide_eq_true_eq,
        not_and]
      omega
    unfold createShareholdingChecked
    rw [if_neg hfalse]
  · intro s input _
    exact ⟨addPayment_success s input, addPayment_appends_payment s input⟩

/-- C9 counterexample: addPayment with a negative amount does not fail with
InvalidArgument before store access; it reports success and the payment
ledger in the store has been written. -/
theorem input_validation_cex :
    (addPayment validationStore validationNegInput).2.success = true ∧
    (addPayment validationStore validationNegInput).1.debtPayments ≠
      validationStore.debtPayments := by decide

theorem input_validation_witness :
    createShareholdingChecked emptyHG badShareInput =
      Except.error "invalid sharePercentage" ∧
    ((addPayment missingDebtStore smallNegInput).2.success = true ∧
     (addPayment missingDebtStore smallNegInput).1.debtPayments =
       missingDebtStore.debtPayments ++
         [{ debtId := smallNegInput.debtId, amount := smallNegInput.amount,
            paymentDate := smallNegInput.paymentDate,
            notes := smallNegInput.notes }]) :=
  ⟨input_validation_basis_points_only.1 emptyHG badShareInput
     (Or.inr (by decide)),
   input_validation_basis_points_only.2.1 missingDebtStore smallNegInput
     (by decide)⟩

/-- C10: a payment with a negative amount on an existing debt with a
non-negative remaining amount succeeds and stores exactly remaining minus
amount, strictly increasing the remaining amount with no upper clamp (so it
can exceed originalAmount), while the status stays unchanged since the new
remaining amount is positive. -/
theorem addPayment_negative_amount_inflates (s : FinanceStore)
    (input : AddPaymentInput) (d : Debt)
    (h : getDebtById s input.debtId = some d)
    (hneg : input.amount < 0) (hnn : 0 ≤ d.remainingAmount) :
    (addPayment s input).2.success = true ∧
    getDebtById (addPayment s input).1 input.debtId =
      some { d with remainingAmount := d.remainingAmount - input.amount } ∧
    d.remainingAmount < d.remainingAmount - input.amount := by
  obtain ⟨hsucc, hlook⟩ := addPayment_spec s input d h
  have hmax : max 0 (d.remainingAmount - input.amount)
      = d.remainingAmount - input.amount :=
    max_eq_right (by omega)
  refine ⟨hsucc, ?_, by omega⟩
  rw [hlook, hmax, if_neg (by omega)]

theorem addPayment_negative_amount_inflates_witness :
    getDebtById negStore 1 = some negDebt ∧
    ((addPayment negStore negInput).2.success = true ∧
     getDebtById (addPayment negStore negInput).1 1 =
       some { negDebt with
         remainingAmount := negDebt.remainingAmount - negInput.amount } ∧
     negDebt.remainingAmount < negDebt.remainingAmount - negInput.amount) ∧
    negDebt.originalAmount < negDebt.remainingAmount - negInput.amount :=
  ⟨by decide,
   addPayment_negative_amount_inflates negStore negInput negDebt (by decide)
     (by decide) (by decide),
   by decide⟩

end MultiorgFinance
